import Mathlib

/-!
Shallow embedding of the OCR order-extraction core of `src/app.py`
(catalog, regex field extraction, fallback catalog matching, and the
preprocessing resize computation), together with theorems settling the
frozen claims about it.

Conventions of the embedding:
* OCR text is a `List Char` (`Str`), mirroring Python strings.
* The regular expressions `EAN13_RE`, `UNITS_RE` and `ENVIO_LINE_RE` are
  fixed-shape patterns; `re.search` is modelled by `scanSuffixesP`, which
  tries every start position from the left and returns the first match,
  exactly as the leftmost-match semantics of the Python engine.
* Character classes (`\w`, `\d`, `\s`, lowercasing) are modelled over the
  ASCII range plus the Spanish accented letters that occur in this
  domain; Python uses full Unicode tables, which coincide with this model
  on every character the program manipulates.
* Functions that Python writes with unbounded loops are written with a
  fuel argument equal to the input length (each step consumes at least
  one character, so the fuel never runs out); this keeps every definition
  structurally recursive and kernel-evaluable.
-/

namespace OcrApp

abbrev Str := List Char

/-- Spanish accented letters treated as word characters by the Python
regex engine in this program. -/
def accentedChars : Str := ['á', 'é', 'í', 'ó', 'ú', 'ñ', 'ü', 'Á', 'É', 'Í', 'Ó', 'Ú', 'Ñ', 'Ü']

/-- Model of the regex word character class `\w` (letters, digits,
underscore) on the alphabet used by this program. -/
def isWordC (c : Char) : Bool := c.isAlphanum || c == '_' || accentedChars.contains c

/-- Model of the regex digit class `\d` (ASCII digits). -/
def isDigitC (c : Char) : Bool := c.isDigit

/-- Model of the regex whitespace class `\s`. -/
def isSpaceC (c : Char) : Bool :=
  c == ' ' || c == '\t' || c == '\n' || c == '\r' || c == '\x0b' || c == '\x0c'

/-- Model of Python `str.lower` on the alphabet used by this program. -/
def toLowerC (c : Char) : Char :=
  if c == 'Á' then 'á' else if c == 'É' then 'é' else if c == 'Í' then 'í'
  else if c == 'Ó' then 'ó' else if c == 'Ú' then 'ú' else if c == 'Ñ' then 'ñ'
  else if c == 'Ü' then 'ü' else c.toLower

def lowerStr (s : Str) : Str := s.map toLowerC

/-- Leftmost-match scanner: tries the matcher `f` on every suffix of the
text from the left, also passing the character just before the suffix
(needed for the `\b` word-boundary assertion), and returns the first
match.  This is the semantics of `re.search` for the fixed-shape
patterns of the program. -/
def scanSuffixesP (f : Option Char → Str → Option α) : Option Char → Str → Option α
  | _, [] => none
  | prev, c :: rest =>
    match f prev (c :: rest) with
    | some a => some a
    | none => scanSuffixesP f (some c) rest

/-- Last character of `pre`, or the initial previous-character `p0` when
`pre` is empty; the previous character seen by the scanner after
consuming `pre`. -/
def lastO (p0 : Option Char) : Str → Option Char
  | [] => p0
  | c :: rest => lastO (some c) rest

/-- Word-boundary test against the previous character: `\b` holds before
a word character iff there is no previous character or it is not a word
character. -/
def boundaryPrev : Option Char → Bool
  | none => true
  | some d => !isWordC d

/-- Word-boundary test after a word character: `\b` holds iff the text
ends here or the next character is not a word character. -/
def afterB : Str → Bool
  | [] => true
  | d :: _ => !isWordC d

/-- Matcher for the body of `EAN13_RE = \b(7\d{12})\b` at the start of
`s` (the leading `\b` is checked by the caller): digit 7, twelve more
digits, then a word boundary. -/
def matchesEAN : Str → Bool
  | [] => false
  | c :: rest =>
    c == '7' && (rest.take 12).length == 12 && (rest.take 12).all isDigitC
      && afterB (rest.drop 12)

/-- Positional matcher for `EAN13_RE`: word boundary before, then the
13-digit body; the captured group is the 13-digit token. -/
def eanMatch (prev : Option Char) (s : Str) : Option Str :=
  if boundaryPrev prev && matchesEAN s then some (s.take 13) else none

/-- `EAN13_RE.search`: first standalone 13-digit token starting with 7. -/
def findEAN13 (t : Str) : Option Str := scanSuffixesP eanMatch none t

/-- Numeric value of a run of ASCII digits, as Python `int` computes it
on the captured group of `UNITS_RE`. -/
def natOfDigits (ds : Str) : Nat := ds.foldl (fun a c => a * 10 + (c.toNat - '0'.toNat)) 0

/-- Matcher for `UNITS_RE = (\d+)\s*(?:unid(?:ad|ades)?)\b` (IGNORECASE)
at the start of `s`: a maximal digit run (the group), optional
whitespace, `unid` optionally extended by `ad` or `ades` (tried in that
order, as the regex alternation does), then a word boundary. -/
def unitsMatch (s : Str) : Option Nat :=
  let ds := s.takeWhile isDigitC
  if ds.isEmpty then none
  else
    let r1 := (s.drop ds.length).dropWhile isSpaceC
    if lowerStr (r1.take 4) = "unid".data then
      let r2 := r1.drop 4
      if lowerStr (r2.take 2) = "ad".data && afterB (r2.drop 2) then some (natOfDigits ds)
      else if lowerStr (r2.take 4) = "ades".data && afterB (r2.drop 4) then some (natOfDigits ds)
      else if afterB r2 then some (natOfDigits ds)
      else none
    else none

/-- `UNITS_RE.search`: numeral of the first units phrase of the text. -/
def findUnits (t : Str) : Option Nat := scanSuffixesP (fun _ s => unitsMatch s) none t

/-- Python `text.replace("  ", " ")`: one left-to-right pass replacing
non-overlapping double spaces by single spaces. -/
def collapseDS : Str → Str
  | ' ' :: ' ' :: rest => ' ' :: collapseDS rest
  | c :: rest => c :: collapseDS rest
  | [] => []

def isEnvE (c : Char) : Bool := c == 'e' || c == 'E'

def isEnvN (c : Char) : Bool := c == 'n' || c == 'N'

def isEnvV (c : Char) : Bool := c == 'v' || c == 'V'

def isEnvI (c : Char) : Bool := c == 'i' || c == 'I' || c == 'í' || c == 'Í'

def isEnvO (c : Char) : Bool := c == 'o' || c == 'O'

/-- Matcher for `ENVIO_LINE_RE = (env[ií]o[^\n]{0,60})` (IGNORECASE) at
the start of `s`: the five-letter word, then greedily up to 60 further
characters of the same line. -/
def envioMatch : Str → Option Str
  | c1 :: c2 :: c3 :: c4 :: c5 :: rest =>
    if isEnvE c1 && isEnvN c2 && isEnvV c3 && isEnvI c4 && isEnvO c5 then
      some (c1 :: c2 :: c3 :: c4 :: c5 :: (rest.takeWhile (fun x => x ≠ '\n')).take 60)
    else none
  | _ => none

/-- `ENVIO_LINE_RE.search`: first shipping segment of the text. -/
def findEnvio (t : Str) : Option Str := scanSuffixesP (fun _ s => envioMatch s) none t

/-- Python `str.strip`: remove leading and trailing whitespace. -/
def stripStr (s : Str) : Str :=
  (((s.dropWhile isSpaceC).reverse.dropWhile isSpaceC)).reverse

/-- First character class of the title regex of `find_title`:
`[A-ZÁÉÍÓÚÑ]`. -/
def classTitleStart (c : Char) : Bool :=
  ('A' ≤ c && c ≤ 'Z') || c == 'Á' || c == 'É' || c == 'Í' || c == 'Ó' || c == 'Ú' || c == 'Ñ'

/-- Body character class of the title regex of `find_title`:
`[\wÁÉÍÓÚñáéíóú0-9\s\-\(\)\/]`. -/
def classTitleBody (c : Char) : Bool :=
  isWordC c || isSpaceC c || c == '-' || c == '(' || c == ')' || c == '/'

/-- `re.findall` of the title pattern
`([A-ZÁÉÍÓÚÑ][\wÁÉÍÓÚñáéíóú0-9\s\-\(\)\/]{15,})`: every non-overlapping
greedy match, scanning from the left.  The fuel starts at the text
length; each step consumes at least one character of the text, so the
fuel never runs out. -/
def findCandsF : Nat → Str → List Str
  | 0, _ => []
  | _ + 1, [] => []
  | fuel + 1, c :: rest =>
    if classTitleStart c then
      let run := rest.takeWhile classTitleBody
      if 15 ≤ run.length then (c :: run) :: findCandsF fuel (rest.drop run.length)
      else findCandsF fuel rest
    else findCandsF fuel rest

def findCands (t : Str) : List Str := findCandsF t.length t

/-- Brand words of `find_title`. -/
def brandWords : List Str := ["crecelac", "lechelak", "fórmula", "formula", "cabra"].map String.data

/-- Python substring containment `needle in hay`. -/
def containsSub (needle hay : Str) : Bool := hay.tails.any (fun t2 => needle.isPrefixOf t2)

def brandHit (lc : Str) : Bool := brandWords.any (fun b => containsSub b lc)

/-- Python `max(cand, key=len)`: first element of maximal length. -/
def maxByLen : List Str → Str
  | [] => []
  | c :: rest => rest.foldl (fun m x => if m.length < x.length then x else m) c

/-- `find_title` of `src/app.py`: collect the regex candidates, keep the
longest one containing a brand word (stripped), otherwise the longest
candidate, otherwise the marker. -/
def find_title (text : Str) : Str :=
  let cand := findCands text
  let best := cand.foldl
    (fun best c => if brandHit (lowerStr c) && best.length < c.length then stripStr c else best) []
  let best2 := if best.isEmpty && !cand.isEmpty then stripStr (maxByLen cand) else best
  if best2.isEmpty then "Título no detectado".data else best2

/-- One catalog entry: keyword list, SKU, canonical title. -/
abbrev CatEntry := List Str × Str × Str

/-- `CATALOGO` of `src/app.py`. -/
def CATALOGO : List CatEntry :=
  [ (["lechelak", "cabra", "340"].map String.data,
      "7501468144501".data, "LecheLak - Leche de Cabra en Polvo 340gr".data),
    (["crecelac", "0-12", "800"].map String.data,
      "7501468140442".data, "Crecelac 0-12 M 800 GR".data),
    (["crecelac", "0-12", "400"].map String.data,
      "7501468145508".data, "Crecelac 0-12 M 400 GR".data),
    (["crecelac", "firstep", "1-3", "360"].map String.data,
      "7501468148103".data, "Crecelac FIRSTEP 1-3 AÑOS 360 GR".data),
    (["crecelac", "firstep", "1-3", "800"].map String.data,
      "7501468148301".data, "Crecelac FIRSTEP 1-3 AÑOS 800 GR".data),
    (["crecelac", "0-12", "1.5"].map String.data,
      "7501468141043".data, "Crecelac 0-12 M 1.5 KG".data),
    (["crecelac", "firstep", "1.5"].map String.data,
      "7501468140947".data, "Crecelac FIRSTEP 1-3 AÑOS 1.5 KG".data) ]

/-- `MARKETPLACE_CONST` of `src/app.py`. -/
def MARKETPLACE_CONST : Str := "Mercadolibre".data

/-- `score_match` of `src/app.py`: how many of the keywords occur as
substrings of the lowercased title. -/
def score_match (tl : Str) (keys : List Str) : Nat :=
  (keys.filter (fun k => containsSub k tl)).length

/-- Loop body of `guess_from_catalog`: keep the first strict improvement
of the score. -/
def guessAux (tl : Str) : List CatEntry → (Str × Str) × Nat → (Str × Str) × Nat
  | [], acc => acc
  | e :: rest, (best, bs) =>
    let sc := score_match tl e.1
    if bs < sc then guessAux tl rest ((e.2.1, e.2.2), sc)
    else guessAux tl rest (best, bs)

/-- `guess_from_catalog` of `src/app.py`. -/
def guess_from_catalog (title : Str) : Str × Str :=
  (guessAux (lowerStr title) CATALOGO (([], []), 0)).1

/-- Python `str.split()` (no separator): whitespace-delimited words,
with the text length as fuel (each step consumes at least one
character). -/
def splitWsF : Nat → Str → List Str
  | 0, _ => []
  | _ + 1, [] => []
  | fuel + 1, c :: rest =>
    if isSpaceC c then splitWsF fuel rest
    else (c :: rest.takeWhile (fun x => !isSpaceC x))
      :: splitWsF fuel (rest.dropWhile (fun x => !isSpaceC x))

def splitWs (s : Str) : List Str := splitWsF s.length s

/-- The record assembled by `extract_fields` (the five output fields). -/
structure ExtractedRecord where
  sku : Str
  titulo : Str
  unidades : Nat
  marketplace : Str
  envio : Str
  deriving DecidableEq, Repr

/-- `extract_fields` of `src/app.py`. -/
def extract_fields (full_text : Str) : ExtractedRecord :=
  let sku0 : Str :=
    match findEAN13 full_text with
    | some c => c
    | none => []
  let title0 := find_title full_text
  let unidades : Nat :=
    match findUnits full_text with
    | some n => n
    | none => 1
  let envio : Str :=
    match findEnvio (collapseDS full_text) with
    | some g => stripStr g
    | none => "Mercado Envíos".data
  let st : Str × Str :=
    if sku0.isEmpty && !title0.isEmpty then
      let g := guess_from_catalog title0
      if !g.1.isEmpty then
        (g.1, if score_match (lowerStr title0) (splitWs (lowerStr g.2)) < 3 then g.2 else title0)
      else (sku0, title0)
    else (sku0, title0)
  { sku := if st.1.isEmpty then "No detectado".data else st.1
    titulo := st.2
    unidades := unidades
    marketplace := MARKETPLACE_CONST
    envio := envio }

/-- Floor of the base-2 logarithm, with fuel (structural recursion so
the kernel can evaluate it); `log2F 64 n` is exact for every `n < 2^64`. -/
def log2F : Nat → Nat → Nat
  | 0, _ => 0
  | fuel + 1, n => if 2 ≤ n then log2F fuel (n / 2) + 1 else 0

/-- Round `A / B` to the nearest integer, ties to even (the IEEE-754
rounding of the significand). -/
def rhe (A B : Nat) : Nat :=
  let q := A / B
  let r := A % B
  if 2 * r < B then q
  else if B < 2 * r then q + 1
  else if q % 2 = 0 then q else q + 1

/-- Binary64 value of the exact ratio `a / b`, for `1 ≤ a / b < 2^64`,
represented exactly as a pair `(R, e)` denoting `R * 2^e / 2^52`:
the exponent is `e = ⌊log₂ (a/b)⌋` and `R` is the significand
`a·2^52 / (b·2^e)` rounded to nearest, ties to even.  This models the
correctly rounded IEEE-754 division and multiplication that Python
performs in `preprocess` (no overflow or subnormals occur in range). -/
def flNum (a b : Nat) : Nat × Nat :=
  let e := log2F 64 (a / b)
  (rhe (a * 2 ^ 52) (b * 2 ^ e), e)

/-- Output dimensions of `preprocess` of `src/app.py` (the geometric
part; grayscale, contrast and median filtering do not change the size):
if the longer dimension is below 1600, compute `scale = 1600 / max(w,h)`
in binary64, multiply each dimension by it in binary64 and truncate with
`int(...)`; otherwise keep the size.  `flNum` makes the two float
operations exact; the final division by `2^52` is the truncation. -/
def preprocessSize (w h : Nat) : Nat × Nat :=
  let m := max w h
  if m < 1600 then
    let s := flNum 1600 m
    let x := flNum (w * s.1 * 2 ^ s.2) (2 ^ 52)
    let y := flNum (h * s.1 * 2 ^ s.2) (2 ^ 52)
    (x.1 * 2 ^ x.2 / 2 ^ 52, y.1 * 2 ^ y.2 / 2 ^ 52)
  else (w, h)

/-!
Definitions following the words of the specification (used only to
compare the specified catalog-fallback matching with the one the code
implements).
-/

/-- Diacritic stripping as the spec words it for token normalization. -/
def stripDiacritic (c : Char) : Char :=
  if c == 'á' then 'a' else if c == 'é' then 'e' else if c == 'í' then 'i'
  else if c == 'ó' then 'o' else if c == 'ú' then 'u' else if c == 'ñ' then 'n'
  else if c == 'ü' then 'u' else c

/-- Token normalization as the spec words it: lowercase, strip
diacritics, keep only alphanumeric or space characters, split on
whitespace; the token set is the deduplicated token list. -/
def specTokens (s : Str) : List Str :=
  (splitWs (((lowerStr s).map stripDiacritic).filter
    (fun c => c.isAlphanum || c == ' '))).dedup

/-- Intersection size between the token set of the OCR text and the
token set of a catalog description, as the spec words it. -/
def specScore (text desc : Str) : Nat :=
  ((specTokens text).filter (fun w => (specTokens desc).contains w)).length

/-- Catalog-fallback matching as the spec words it: score every entry by
token-set intersection with the full OCR text, pick the strictly
greatest score (first entry wins ties), no match when the best score
is 0. -/
def specFallback (text : Str) : Option CatEntry :=
  (CATALOGO.foldl
    (fun acc e =>
      let sc := specScore text e.2.2
      if acc.2 < sc then (some e, sc) else acc)
    ((none : Option CatEntry), 0)).1

/-!
Helper lemmas.
-/

theorem lastO_cons (p0 : Option Char) (c : Char) (p : Str) :
    lastO p0 (c :: p) = lastO (some c) p := rfl

theorem scanSuffixesP_some {α : Type} {f : Option Char → Str → Option α} :
    ∀ (s : Str) (p0 : Option Char) (a : α),
      scanSuffixesP f p0 s = some a →
      ∃ pre suf, s = pre ++ suf ∧ f (lastO p0 pre) suf = some a ∧
        ∀ pre' suf', s = pre' ++ suf' → pre'.length < pre.length →
          f (lastO p0 pre') suf' = none := by
  intro s
  induction s with
  | nil => intro p0 a h; simp [scanSuffixesP] at h
  | cons c rest ih =>
    intro p0 a h
    simp only [scanSuffixesP] at h
    cases hf : f p0 (c :: rest) with
    | some b =>
      rw [hf] at h
      cases h
      refine ⟨[], c :: rest, rfl, ?_, ?_⟩
      · simpa [lastO] using hf
      · intro pre' suf' _ hl
        simp at hl
    | none =>
      rw [hf] at h
      obtain ⟨pre1, suf, hsplit, hmatch, hmin⟩ := ih (some c) a h
      refine ⟨c :: pre1, suf, by simp [hsplit], ?_, ?_⟩
      · rw [lastO_cons]; exact hmatch
      · intro pre' suf' hcat hlen
        cases pre' with
        | nil =>
          simp only [List.nil_append] at hcat
          rw [hcat] at hf
          simpa [lastO] using hf
        | cons c' p' =>
          simp only [List.cons_append, List.cons.injEq] at hcat
          obtain ⟨hc', hrest⟩ := hcat
          subst hc'
          rw [lastO_cons]
          exact hmin p' suf' hrest (by simpa using hlen)

theorem scanSuffixesP_none {α : Type} {f : Option Char → Str → Option α} :
    ∀ (s : Str) (p0 : Option Char),
      scanSuffixesP f p0 s = none →
      ∀ pre suf, s = pre ++ suf → suf ≠ [] → f (lastO p0 pre) suf = none := by
  intro s
  induction s with
  | nil =>
    intro p0 _ pre suf hcat hne
    exact absurd (List.append_eq_nil.mp hcat.symm).2 hne
  | cons c rest ih =>
    intro p0 h pre suf hcat hne
    simp only [scanSuffixesP] at h
    cases hf : f p0 (c :: rest) with
    | some b => rw [hf] at h; cases h
    | none =>
      rw [hf] at h
      cases pre with
      | nil =>
        simp only [List.nil_append] at hcat
        rw [hcat] at hf
        simpa [lastO] using hf
      | cons c' p' =>
        simp only [List.cons_append, List.cons.injEq] at hcat
        obtain ⟨hc', hrest⟩ := hcat
        subst hc'
        rw [lastO_cons]
        exact ih (some c) h p' suf hrest hne

theorem eanMatch_some {prev : Option Char} {s c : Str} (h : eanMatch prev s = some c) :
    boundaryPrev prev = true ∧ matchesEAN s = true ∧ c = s.take 13 := by
  unfold eanMatch at h
  split at h
  · next hb =>
    cases h
    rw [Bool.and_eq_true] at hb
    exact ⟨hb.1, hb.2, rfl⟩
  · cases h

theorem matchesEAN_shape {s : Str} (h : matchesEAN s = true) :
    (s.take 13).length = 13 ∧ (s.take 13).head? = some '7' ∧
      (s.take 13).all isDigitC = true := by
  cases s with
  | nil => simp [matchesEAN] at h
  | cons c rest =>
    simp only [matchesEAN, Bool.and_eq_true, beq_iff_eq] at h
    obtain ⟨⟨⟨hc, hlen⟩, hall⟩, -⟩ := h
    subst hc
    have h13 : (('7' : Char) :: rest).take 13 = '7' :: rest.take 12 := rfl
    rw [h13]
    refine ⟨?_, rfl, ?_⟩
    · simp only [List.length_cons]
      omega
    · rw [List.all_cons, Bool.and_eq_true]
      exact ⟨by decide, hall⟩

theorem findEAN13_shape {t c : Str} (h : findEAN13 t = some c) :
    c.length = 13 ∧ c.head? = some '7' ∧ c.all isDigitC = true ∧ c <:+: t := by
  obtain ⟨pre, suf, hsplit, hmatch, -⟩ := scanSuffixesP_some t none c h
  obtain ⟨-, hm, hc⟩ := eanMatch_some hmatch
  obtain ⟨hlen, hhead, hall⟩ := matchesEAN_shape hm
  subst hc
  refine ⟨hlen, hhead, hall, pre, suf.drop 13, ?_⟩
  rw [hsplit, ← List.take_append_drop 13 suf]
  simp

theorem ite_isEmpty_ne_nil {m b : Str} (hm : m ≠ []) : (if b.isEmpty then m else b) ≠ [] := by
  split
  · exact hm
  · next hb => intro hnil; rw [hnil] at hb; simp at hb

theorem find_title_ne_nil (t : Str) : find_title t ≠ [] := by
  unfold find_title
  exact ite_isEmpty_ne_nil (by simp)

theorem find_title_isEmpty (t : Str) : (find_title t).isEmpty = false := by
  have hne := find_title_ne_nil t
  cases hft : find_title t
  · exact absurd hft hne
  · rfl

theorem extract_fields_of_found {t c : Str} (h : findEAN13 t = some c) :
    (extract_fields t).sku = c ∧ (extract_fields t).titulo = find_title t := by
  have hlen : c.length = 13 := (findEAN13_shape h).1
  have hne : c.isEmpty = false := by
    cases c with
    | nil => simp at hlen
    | cons a b => rfl
  constructor <;> simp [extract_fields, h, hne]

theorem guessAux_mem (tl : Str) :
    ∀ (L : List CatEntry) (acc : (Str × Str) × Nat),
      (guessAux tl L acc).1 = acc.1 ∨ ∃ e ∈ L, (guessAux tl L acc).1 = (e.2.1, e.2.2) := by
  intro L
  induction L with
  | nil => intro acc; left; rfl
  | cons e rest ih =>
    intro acc
    obtain ⟨best, bs⟩ := acc
    simp only [guessAux]
    split
    · rcases ih ((e.2.1, e.2.2), score_match tl e.1) with h1 | ⟨e', he', h1⟩
      · right; exact ⟨e, by simp, by rw [h1]⟩
      · right; exact ⟨e', by simp [he'], h1⟩
    · rcases ih (best, bs) with h1 | ⟨e', he', h1⟩
      · left; exact h1
      · right; exact ⟨e', by simp [he'], h1⟩

theorem extract_fields_sku_of_none {t : Str} (h : findEAN13 t = none) :
    (extract_fields t).sku = "No detectado".data ∨
      ∃ e ∈ CATALOGO, (extract_fields t).sku = e.2.1 := by
  have ht := find_title_isEmpty t
  by_cases hg : (guess_from_catalog (find_title t)).1.isEmpty
  · left
    simp [extract_fields, h, ht, hg]
  · right
    rcases guessAux_mem (lowerStr (find_title t)) CATALOGO (([], []), 0) with h1 | ⟨e, he, h1⟩
    · exact absurd (by rw [guess_from_catalog, h1]; rfl) hg
    · have hgc : guess_from_catalog (find_title t) = (e.2.1, e.2.2) := h1
      refine ⟨e, he, ?_⟩
      have hg1 : (e.2.1 : Str).isEmpty = false := by
        rw [hgc] at hg
        cases hq : (e.2.1 : Str).isEmpty
        · rfl
        · exact absurd hq hg
      simp [extract_fields, h, ht, hgc, hg1]

theorem extract_fields_unidades (t : Str) :
    (extract_fields t).unidades =
      match findUnits t with
      | some n => n
      | none => 1 := by
  simp only [extract_fields]

theorem extract_fields_envio (t : Str) :
    (extract_fields t).envio =
      match findEnvio (collapseDS t) with
      | some g => stripStr g
      | none => "Mercado Envíos".data := by
  simp only [extract_fields]

theorem guessAux_score_le (tl : Str) :
    ∀ (L : List CatEntry) (b : Str × Str) (s : Nat),
      s ≤ (guessAux tl L (b, s)).2 ∧
        ∀ e ∈ L, score_match tl e.1 ≤ (guessAux tl L (b, s)).2 := by
  intro L
  induction L with
  | nil => intro b s; exact ⟨Nat.le_refl s, by simp⟩
  | cons e rest ih =>
    intro b s
    simp only [guessAux]
    split
    · next hlt =>
      obtain ⟨h1, h2⟩ := ih (e.2.1, e.2.2) (score_match tl e.1)
      refine ⟨Nat.le_trans (Nat.le_of_lt hlt) h1, ?_⟩
      intro e' he'
      rcases List.mem_cons.mp he' with rfl | hmem
      · exact h1
      · exact h2 e' hmem
    · next hnlt =>
      obtain ⟨h1, h2⟩ := ih b s
      refine ⟨h1, ?_⟩
      intro e' he'
      rcases List.mem_cons.mp he' with rfl | hmem
      · exact Nat.le_trans (Nat.le_of_not_lt hnlt) h1
      · exact h2 e' hmem

theorem guessAux_best_of_eq (tl : Str) :
    ∀ (L : List CatEntry) (b : Str × Str) (s : Nat),
      (guessAux tl L (b, s)).2 = s → (guessAux tl L (b, s)).1 = b := by
  intro L
  induction L with
  | nil => intro b s _; rfl
  | cons e rest ih =>
    intro b s
    simp only [guessAux]
    split
    · next hlt =>
      intro heq
      have h1 := (guessAux_score_le tl rest (e.2.1, e.2.2) (score_match tl e.1)).1
      omega
    · exact ih b s

theorem guessAux_argmax (tl : Str) (d : CatEntry) :
    ∀ (L : List CatEntry) (b : Str × Str) (s : Nat),
      s < (guessAux tl L (b, s)).2 →
      ∃ i, i < L.length ∧
        score_match tl (L.getD i d).1 = (guessAux tl L (b, s)).2 ∧
        (guessAux tl L (b, s)).1 = ((L.getD i d).2.1, (L.getD i d).2.2) ∧
        ∀ j, j < i → score_match tl (L.getD j d).1 < (guessAux tl L (b, s)).2 := by
  intro L
  induction L with
  | nil =>
    intro b s h
    simp only [guessAux] at h
    omega
  | cons e rest ih =>
    intro b s h
    by_cases hc : s < score_match tl e.1
    · simp only [guessAux, if_pos hc] at h ⊢
      have h1 := (guessAux_score_le tl rest (e.2.1, e.2.2) (score_match tl e.1)).1
      rcases Nat.eq_or_lt_of_le h1 with heq | hlt
      · have hb := guessAux_best_of_eq tl rest (e.2.1, e.2.2) (score_match tl e.1) heq.symm
        refine ⟨0, by simp, ?_, ?_, ?_⟩
        · simp [← heq]
        · simp [hb]
        · intro j hj; omega
      · obtain ⟨i, hi, hsc, hbest, hmin⟩ := ih (e.2.1, e.2.2) (score_match tl e.1) hlt
        refine ⟨i + 1, by simp; omega, ?_, ?_, ?_⟩
        · simpa using hsc
        · simpa using hbest
        · intro j hj
          cases j with
          | zero => simpa using hlt
          | succ j' =>
            simp only [List.getD_cons_succ]
            exact hmin j' (by omega)
    · simp only [guessAux, if_neg hc] at h ⊢
      obtain ⟨i, hi, hsc, hbest, hmin⟩ := ih b s h
      refine ⟨i + 1, by simp; omega, ?_, ?_, ?_⟩
      · simpa using hsc
      · simpa using hbest
      · intro j hj
        cases j with
        | zero =>
          simp only [List.getD_cons_zero]
          omega
        | succ j' =>
          simp only [List.getD_cons_succ]
          exact hmin j' (by omega)

theorem find_title_of_no_cands {t : Str} (h : findCands t = []) :
    find_title t = "Título no detectado".data := by
  simp [find_title, h]

theorem extract_fields_marker_record {t : Str}
    (h1 : findEAN13 t = none) (h2 : findCands t = [])
    (h3 : findUnits t = none) (h4 : findEnvio (collapseDS t) = none) :
    extract_fields t =
      ⟨"No detectado".data, "Título no detectado".data, 1,
        MARKETPLACE_CONST, "Mercado Envíos".data⟩ := by
  have htitle := find_title_of_no_cands h2
  have hguess : guess_from_catalog ("Título no detectado".data) = ([], []) := by decide
  simp [extract_fields, h1, h3, h4, htitle, hguess]

theorem envioMatch_some {s cap : Str} (h : envioMatch s = some cap) :
    ∃ c1 c2 c3 c4 c5 r,
      cap = c1 :: c2 :: c3 :: c4 :: c5 :: r ∧
      isEnvE c1 = true ∧ isEnvN c2 = true ∧ isEnvV c3 = true ∧
      isEnvI c4 = true ∧ isEnvO c5 = true ∧
      r.length ≤ 60 ∧ ∀ x ∈ r, x ≠ '\n' := by
  cases s with
  | nil => simp [envioMatch] at h
  | cons c1 s1 =>
  cases s1 with
  | nil => simp [envioMatch] at h
  | cons c2 s2 =>
  cases s2 with
  | nil => simp [envioMatch] at h
  | cons c3 s3 =>
  cases s3 with
  | nil => simp [envioMatch] at h
  | cons c4 s4 =>
  cases s4 with
  | nil => simp [envioMatch] at h
  | cons c5 rest =>
    simp only [envioMatch] at h
    split at h
    · next hcond =>
      cases h
      have hc := hcond
      rw [Bool.and_eq_true, Bool.and_eq_true, Bool.and_eq_true, Bool.and_eq_true] at hc
      obtain ⟨⟨⟨⟨he, hn⟩, hv⟩, hi⟩, ho⟩ := hc
      refine ⟨c1, c2, c3, c4, c5, _, rfl, he, hn, hv, hi, ho, ?_, ?_⟩
      · exact List.length_take_le 60 _
      · intro x hx
        have hx1 := List.mem_of_mem_take hx
        have hx2 := List.mem_takeWhile_imp hx1
        exact of_decide_eq_true hx2
    · cases h

theorem stripStr_sublist (s : Str) : List.Sublist (stripStr s) s := by
  unfold stripStr
  have h1 : List.Sublist (s.dropWhile isSpaceC) s := List.dropWhile_sublist isSpaceC
  have h2 : List.Sublist ((s.dropWhile isSpaceC).reverse.dropWhile isSpaceC)
      (s.dropWhile isSpaceC).reverse := List.dropWhile_sublist isSpaceC
  have h3 := h2.reverse
  rw [List.reverse_reverse] at h3
  exact h3.trans h1

theorem stripStr_ne_nil {c : Char} {l : Str} (hc : isSpaceC c = false) :
    stripStr (c :: l) ≠ [] := by
  unfold stripStr
  rw [List.dropWhile_cons, hc]
  simp only [Bool.false_eq_true, if_false]
  intro hnil
  rw [List.reverse_eq_nil_iff] at hnil
  have hall := List.dropWhile_eq_nil_iff.mp hnil
  have hcmem : c ∈ (c :: l).reverse := by simp
  have := hall c hcmem
  rw [hc] at this
  cases this

theorem isEnvE_not_space {c : Char} (h : isEnvE c = true) : isSpaceC c = false := by
  have h2 : c = 'e' ∨ c = 'E' := by simpa [isEnvE] using h
  rcases h2 with rfl | rfl <;> rfl

theorem eanMatch_none {prev : Option Char} {s : Str} (h : eanMatch prev s = none) :
    (boundaryPrev prev && matchesEAN s) = false := by
  unfold eanMatch at h
  split at h
  · cases h
  · next hc =>
    cases hb : (boundaryPrev prev && matchesEAN s)
    · rfl
    · exact absurd hb hc

theorem extract_fields_titulo_of_none {t : Str} (h : findEAN13 t = none) :
    (extract_fields t).titulo = find_title t ∨
      ∃ e ∈ CATALOGO, (extract_fields t).titulo = e.2.2 := by
  have ht := find_title_isEmpty t
  by_cases hg : (guess_from_catalog (find_title t)).1.isEmpty
  · left; simp [extract_fields, h, ht, hg]
  · rcases guessAux_mem (lowerStr (find_title t)) CATALOGO (([], []), 0) with h1 | ⟨e, he, h1⟩
    · exact absurd (by rw [guess_from_catalog, h1]; rfl) hg
    · have hgc : guess_from_catalog (find_title t) = (e.2.1, e.2.2) := h1
      have hg1 : (e.2.1 : Str).isEmpty = false := by
        rw [hgc] at hg
        cases hq : (e.2.1 : Str).isEmpty
        · rfl
        · exact absurd hq hg
      have hne : (e.2.1 : Str) ≠ [] := by
        intro hnil
        rw [hnil] at hg1
        simp at hg1
      by_cases hsc : score_match (lowerStr (find_title t)) (splitWs (lowerStr e.2.2)) < 3
      · right; exact ⟨e, he, by simp [extract_fields, h, ht, hgc, hg, hsc, hne]⟩
      · left; simp [extract_fields, h, ht, hgc, hg, hsc, hne]

theorem catalog_fields_ne_nil :
    ∀ e ∈ CATALOGO, (e.2.1 : Str) ≠ [] ∧ (e.2.2 : Str) ≠ [] := by decide

theorem extract_fields_sku_ne_nil (t : Str) : (extract_fields t).sku ≠ [] := by
  cases hf : findEAN13 t with
  | some c =>
    rw [(extract_fields_of_found hf).1]
    have hlen := (findEAN13_shape hf).1
    intro hnil
    rw [hnil] at hlen
    simp at hlen
  | none =>
    rcases extract_fields_sku_of_none hf with h1 | ⟨e, he, h1⟩
    · rw [h1]; simp
    · rw [h1]; exact (catalog_fields_ne_nil e he).1

theorem extract_fields_titulo_ne_nil (t : Str) : (extract_fields t).titulo ≠ [] := by
  cases hf : findEAN13 t with
  | some c =>
    rw [(extract_fields_of_found hf).2]
    exact find_title_ne_nil t
  | none =>
    rcases extract_fields_titulo_of_none hf with h1 | ⟨e, he, h1⟩
    · rw [h1]; exact find_title_ne_nil t
    · rw [h1]; exact (catalog_fields_ne_nil e he).2

theorem findEnvio_head_shape {t g : Str} (h : findEnvio t = some g) :
    ∃ c1 r, g = c1 :: r ∧ isEnvE c1 = true := by
  obtain ⟨pre, suf, hsplit, hmatch, -⟩ := scanSuffixesP_some t none g h
  obtain ⟨c1, c2, c3, c4, c5, r, hcap, he, -⟩ := envioMatch_some hmatch
  exact ⟨c1, _, hcap, he⟩

theorem extract_fields_envio_ne_nil (t : Str) : (extract_fields t).envio ≠ [] := by
  rw [extract_fields_envio]
  cases hf : findEnvio (collapseDS t) with
  | none => simp
  | some g =>
    obtain ⟨c1, r, rfl, he⟩ := findEnvio_head_shape hf
    exact stripStr_ne_nil (isEnvE_not_space he)

theorem extract_fields_marketplace (t : Str) :
    (extract_fields t).marketplace = MARKETPLACE_CONST := by
  simp only [extract_fields]

/-!
Claim theorems.
-/

/-- C1 counterexample: the text "7501468140442" consists of a single
13-digit code token that is present in the Catalog with canonical
description "Crecelac 0-12 M 800 GR", yet the extracted title is the
generic marker, not that description: the claimed code-to-title
round-trip fails because `extract_fields` never consults the catalog
when a code is found. -/
theorem c1_roundtrip_counterexample :
    findEAN13 ("7501468140442".data) = some ("7501468140442".data) ∧
    (∃ e ∈ CATALOGO, e.2.1 = "7501468140442".data ∧
      e.2.2 = "Crecelac 0-12 M 800 GR".data) ∧
    (extract_fields ("7501468140442".data)).titulo = "Título no detectado".data ∧
    (extract_fields ("7501468140442".data)).titulo ≠ "Crecelac 0-12 M 800 GR".data := by
  refine ⟨by decide, by decide, by decide, by decide⟩

/-- C1 amended: for every OCR text whose first 13-digit code token is a
catalog code, the extracted SKU is that code, but the title is the
output of the heuristic `find_title` on the text; the catalog
description plays no role once a code is found. -/
theorem c1_code_found_behavior {t c : Str} (h1 : findEAN13 t = some c)
    (_h2 : c ∈ CATALOGO.map (fun e => e.2.1)) :
    (extract_fields t).sku = c ∧ (extract_fields t).titulo = find_title t :=
  extract_fields_of_found h1

/-- C1 witness: the amended theorem applied to the text
"x 7501468140442", whose code token is in the catalog. -/
theorem c1_code_found_behavior_witness :
    findEAN13 ("x 7501468140442".data) = some ("7501468140442".data) ∧
    "7501468140442".data ∈ CATALOGO.map (fun e => e.2.1) ∧
    ((extract_fields ("x 7501468140442".data)).sku = "7501468140442".data ∧
      (extract_fields ("x 7501468140442".data)).titulo =
        find_title ("x 7501468140442".data)) :=
  ⟨by decide, by decide, c1_code_found_behavior (by decide) (by decide)⟩

/-- C2 counterexample: for the text "7999999999999", a syntactically
valid code absent from the Catalog, the extractor returns the code as
SKU, but the title is the same generic "Título no detectado" marker as
for the empty text: there is no distinct "not found in catalog" marker
anywhere in the code. -/
theorem c2_unknown_code_counterexample :
    findEAN13 ("7999999999999".data) = some ("7999999999999".data) ∧
    "7999999999999".data ∉ CATALOGO.map (fun e => e.2.1) ∧
    (extract_fields ("7999999999999".data)).sku = "7999999999999".data ∧
    (extract_fields ("7999999999999".data)).titulo = "Título no detectado".data ∧
    (extract_fields ("7999999999999".data)).titulo = (extract_fields []).titulo := by
  refine ⟨by decide, by decide, by decide, by decide, by decide⟩

/-- C2 amended: for every OCR text whose first 13-digit code token is
not in the Catalog, the extractor still returns that code as SKU with
the heuristic `find_title` title (no catalog-membership check, no
dedicated marker); it never raises, being a total function by
construction. -/
theorem c2_unknown_code_behavior {t c : Str} (h1 : findEAN13 t = some c)
    (_h2 : c ∉ CATALOGO.map (fun e => e.2.1)) :
    (extract_fields t).sku = c ∧ (extract_fields t).titulo = find_title t :=
  extract_fields_of_found h1

/-- C2 witness: the amended theorem applied to the text
"7999999999999", whose code token is not in the catalog. -/
theorem c2_unknown_code_behavior_witness :
    findEAN13 ("y 7999999999999".data) = some ("7999999999999".data) ∧
    "7999999999999".data ∉ CATALOGO.map (fun e => e.2.1) ∧
    ((extract_fields ("y 7999999999999".data)).sku = "7999999999999".data ∧
      (extract_fields ("y 7999999999999".data)).titulo =
        find_title ("y 7999999999999".data)) :=
  ⟨by decide, by decide, c2_unknown_code_behavior (by decide) (by decide)⟩

/-- C3 counterexample: the text "zzz 5 unidades" has no 13-digit code
and token-overlap (and keyword) score 0 against every catalog entry, and
the extractor does produce both markers, but units is 5, not 1: the
units (and shipping) defaults are governed solely by their own patterns,
not by the failure of the catalog match. -/
theorem c3_no_match_counterexample :
    findEAN13 ("zzz 5 unidades".data) = none ∧
    CATALOGO.all (fun e => specScore ("zzz 5 unidades".data) e.2.2 == 0) = true ∧
    CATALOGO.all
      (fun e => score_match (lowerStr ("zzz 5 unidades".data)) e.1 == 0) = true ∧
    (extract_fields ("zzz 5 unidades".data)).sku = "No detectado".data ∧
    (extract_fields ("zzz 5 unidades".data)).titulo = "Título no detectado".data ∧
    (extract_fields ("zzz 5 unidades".data)).unidades = 5 ∧
    (extract_fields ("zzz 5 unidades".data)).unidades ≠ 1 := by
  refine ⟨by decide, by decide, by decide, by decide, by decide, by decide, by decide⟩

/-- C3 amended: for every OCR text with no 13-digit code, no candidate
for the heuristic title regex, no units match and no shipping match, the
record is exactly the two "not detected" markers, units 1 and the
fallback shipping string; moreover the marker title indeed scores 0
against every catalog entry, so the fallback cannot fire. -/
theorem c3_all_defaults {t : Str} (h1 : findEAN13 t = none) (h2 : findCands t = [])
    (h3 : findUnits t = none) (h4 : findEnvio (collapseDS t) = none) :
    extract_fields t =
      ⟨"No detectado".data, "Título no detectado".data, 1,
        MARKETPLACE_CONST, "Mercado Envíos".data⟩ ∧
    ∀ e ∈ CATALOGO, score_match (lowerStr (find_title t)) e.1 = 0 := by
  refine ⟨extract_fields_marker_record h1 h2 h3 h4, ?_⟩
  rw [find_title_of_no_cands h2]
  decide

/-- C3 witness: the amended theorem applied to the text "zzz". -/
theorem c3_all_defaults_witness :
    findEAN13 ("zzz".data) = none ∧ findCands ("zzz".data) = [] ∧
    findUnits ("zzz".data) = none ∧ findEnvio (collapseDS ("zzz".data)) = none ∧
    (extract_fields ("zzz".data) =
      ⟨"No detectado".data, "Título no detectado".data, 1,
        MARKETPLACE_CONST, "Mercado Envíos".data⟩ ∧
      ∀ e ∈ CATALOGO, score_match (lowerStr (find_title ("zzz".data))) e.1 = 0) :=
  ⟨by decide, by decide, by decide, by decide,
    c3_all_defaults (by decide) (by decide) (by decide) (by decide)⟩

/-- C4 counterexample: for the OCR text "crecelac firstep 360", the
matching that the spec describes (token-set intersection of the full
text against each description) selects the entry with SKU
7501468148103, but the code selects nothing: its fallback scores
hand-written keyword substrings against the lowercased heuristic title
(here the marker, as the all-lowercase text yields no title candidate),
not token sets against the full text. -/
theorem c4_fallback_divergence :
    findEAN13 ("crecelac firstep 360".data) = none ∧
    (specFallback ("crecelac firstep 360".data)).map (fun e => e.2.1) =
      some ("7501468148103".data) ∧
    (extract_fields ("crecelac firstep 360".data)).sku = "No detectado".data := by
  refine ⟨by decide, by decide, by decide⟩

/-- C4 amended: `guess_from_catalog` scores each catalog entry by how
many of its keyword strings occur as substrings of the lowercased input
title, and returns either no entry (when every score is 0) or the data
of the entry with the strictly greatest score, earlier entries winning
ties (the selected index has a strictly greater score than every earlier
index and at least the score of every index); being a pure function, the
selection is deterministic. -/
theorem c4_guess_argmax (title : Str) :
    (guess_from_catalog title = ([], []) ∧
      ∀ e ∈ CATALOGO, score_match (lowerStr title) e.1 = 0) ∨
    ∃ i, i < CATALOGO.length ∧
      guess_from_catalog title =
        ((CATALOGO.getD i ([], [], [])).2.1, (CATALOGO.getD i ([], [], [])).2.2) ∧
      0 < score_match (lowerStr title) (CATALOGO.getD i ([], [], [])).1 ∧
      (∀ j, j < i →
        score_match (lowerStr title) (CATALOGO.getD j ([], [], [])).1 <
          score_match (lowerStr title) (CATALOGO.getD i ([], [], [])).1) ∧
      (∀ j, j < CATALOGO.length →
        score_match (lowerStr title) (CATALOGO.getD j ([], [], [])).1 ≤
          score_match (lowerStr title) (CATALOGO.getD i ([], [], [])).1) := by
  have hle := guessAux_score_le (lowerStr title) CATALOGO ([], []) 0
  rcases Nat.eq_zero_or_pos (guessAux (lowerStr title) CATALOGO (([], []), 0)).2
    with h0 | hpos
  · left
    constructor
    · rw [guess_from_catalog]
      exact guessAux_best_of_eq (lowerStr title) CATALOGO ([], []) 0 h0
    · intro e he
      have := hle.2 e he
      omega
  · right
    obtain ⟨i, hi, hsc, hbest, hmin⟩ :=
      guessAux_argmax (lowerStr title) ([], [], []) CATALOGO ([], []) 0 hpos
    refine ⟨i, hi, ?_, ?_, ?_, ?_⟩
    · rw [guess_from_catalog]
      exact hbest
    · rw [hsc]; exact hpos
    · intro j hj
      rw [hsc]
      exact hmin j hj
    · intro j hj
      rw [hsc]
      have hmem : CATALOGO.getD j ([], [], []) ∈ CATALOGO := by
        rw [List.getD_eq_getElem CATALOGO ([], [], []) hj]
        apply List.getElem_mem
      exact hle.2 _ hmem

/-- C4 witness: the amended theorem applied to the title
"Crecelac 0-12 M 800 GR". -/
theorem c4_guess_argmax_witness :
    (guess_from_catalog ("Crecelac 0-12 M 800 GR".data) = ([], []) ∧
      ∀ e ∈ CATALOGO, score_match (lowerStr ("Crecelac 0-12 M 800 GR".data)) e.1 = 0) ∨
    ∃ i, i < CATALOGO.length ∧
      guess_from_catalog ("Crecelac 0-12 M 800 GR".data) =
        ((CATALOGO.getD i ([], [], [])).2.1, (CATALOGO.getD i ([], [], [])).2.2) ∧
      0 < score_match (lowerStr ("Crecelac 0-12 M 800 GR".data))
        (CATALOGO.getD i ([], [], [])).1 ∧
      (∀ j, j < i →
        score_match (lowerStr ("Crecelac 0-12 M 800 GR".data))
            (CATALOGO.getD j ([], [], [])).1 <
          score_match (lowerStr ("Crecelac 0-12 M 800 GR".data))
            (CATALOGO.getD i ([], [], [])).1) ∧
      (∀ j, j < CATALOGO.length →
        score_match (lowerStr ("Crecelac 0-12 M 800 GR".data))
            (CATALOGO.getD j ([], [], [])).1 ≤
          score_match (lowerStr ("Crecelac 0-12 M 800 GR".data))
            (CATALOGO.getD i ([], [], [])).1) :=
  c4_guess_argmax ("Crecelac 0-12 M 800 GR".data)

/-- C5: the product code is resolved as the first standalone 13-digit
token of the text starting with digit 7 (word boundary before, digit 7,
twelve digits, word boundary after): when `findEAN13` returns a code,
the record carries it as SKU and it is the match at the leftmost
matching position (no earlier split of the text matches); when it
returns none, no position of the text matches at all and the SKU comes
from the fallback (a catalog SKU or the marker). -/
theorem c5_first_code_wins (t : Str) :
    (∀ c, findEAN13 t = some c →
      (extract_fields t).sku = c ∧
      ∃ pre suf, t = pre ++ suf ∧
        (boundaryPrev (lastO none pre) && matchesEAN suf) = true ∧ c = suf.take 13 ∧
        ∀ pre' suf', t = pre' ++ suf' → pre'.length < pre.length →
          (boundaryPrev (lastO none pre') && matchesEAN suf') = false) ∧
    (findEAN13 t = none →
      ((extract_fields t).sku = "No detectado".data ∨
        ∃ e ∈ CATALOGO, (extract_fields t).sku = e.2.1) ∧
      ∀ pre suf, t = pre ++ suf →
        (boundaryPrev (lastO none pre) && matchesEAN suf) = false) := by
  constructor
  · intro c h
    refine ⟨(extract_fields_of_found h).1, ?_⟩
    obtain ⟨pre, suf, hsplit, hmatch, hmin⟩ := scanSuffixesP_some t none c h
    obtain ⟨hb, hm, hc⟩ := eanMatch_some hmatch
    refine ⟨pre, suf, hsplit, by simp [hb, hm], hc, ?_⟩
    intro pre' suf' hcat hlen
    exact eanMatch_none (hmin pre' suf' hcat hlen)
  · intro h
    refine ⟨extract_fields_sku_of_none h, ?_⟩
    intro pre suf hcat
    cases suf with
    | nil => simp [matchesEAN]
    | cons a r =>
      exact eanMatch_none (scanSuffixesP_none t none h pre (a :: r) hcat (by simp))

/-- C5 witness: on a text with two code tokens the first one wins. -/
theorem c5_first_code_wins_witness :
    findEAN13 ("7999999999999 7501468140442".data) = some ("7999999999999".data) ∧
    ((extract_fields ("7999999999999 7501468140442".data)).sku = "7999999999999".data ∧
      ∃ pre suf, "7999999999999 7501468140442".data = pre ++ suf ∧
        (boundaryPrev (lastO none pre) && matchesEAN suf) = true ∧
        "7999999999999".data = suf.take 13 ∧
        ∀ pre' suf', "7999999999999 7501468140442".data = pre' ++ suf' →
          pre'.length < pre.length →
          (boundaryPrev (lastO none pre') && matchesEAN suf') = false) :=
  ⟨by decide, (c5_first_code_wins ("7999999999999 7501468140442".data)).1
    ("7999999999999".data) (by decide)⟩

/-- C6 counterexample: the text "0 unidades" matches the units pattern
with numeral 0, so the units field is 0, refuting the claimed invariant
that units is always at least 1. -/
theorem c6_units_zero_counterexample :
    (extract_fields ("0 unidades".data)).unidades = 0 ∧
    ¬(1 ≤ (extract_fields ("0 unidades".data)).unidades) := by
  refine ⟨by decide, by decide⟩

/-- C6 amended: the units field equals the numeral of the first
occurrence of a numeral followed by optional whitespace and a unit word
("unidad", "unidades" or the abbreviation "unid"), and defaults to 1
when no such occurrence exists; the matched numeral may be 0, so the
field is a natural number but not necessarily at least 1. -/
theorem c6_units_value (t : Str) :
    (findUnits t = none ∧ (extract_fields t).unidades = 1) ∨
    (∃ n, findUnits t = some n ∧ (extract_fields t).unidades = n ∧
      ∃ pre suf, t = pre ++ suf ∧ unitsMatch suf = some n ∧
        ∀ pre' suf', t = pre' ++ suf' → pre'.length < pre.length →
          unitsMatch suf' = none) := by
  cases h : findUnits t with
  | none =>
    left
    exact ⟨rfl, by rw [extract_fields_unidades, h]⟩
  | some n =>
    right
    refine ⟨n, rfl, by rw [extract_fields_unidades, h], ?_⟩
    obtain ⟨pre, suf, hsplit, hmatch, hmin⟩ := scanSuffixesP_some t none n h
    exact ⟨pre, suf, hsplit, hmatch, fun pre' suf' hc hl => hmin pre' suf' hc hl⟩

/-- C6 witness: the amended theorem applied to the text "3 unidades x". -/
theorem c6_units_value_witness :
    (findUnits ("3 unidades x".data) = none ∧
      (extract_fields ("3 unidades x".data)).unidades = 1) ∨
    (∃ n, findUnits ("3 unidades x".data) = some n ∧
      (extract_fields ("3 unidades x".data)).unidades = n ∧
      ∃ pre suf, "3 unidades x".data = pre ++ suf ∧ unitsMatch suf = some n ∧
        ∀ pre' suf', "3 unidades x".data = pre' ++ suf' →
          pre'.length < pre.length → unitsMatch suf' = none) :=
  c6_units_value ("3 unidades x".data)

/-- C7: the shipping field is either the stripped first match of the
envío pattern on the double-space-collapsed text (that match starts with
a case- and diacritic-insensitive spelling of the five-letter word
"envío", continues with at most 60 further characters of the same
logical line, contains no newline, and earlier positions of the text do
not match), or exactly the fixed fallback string "Mercado Envíos" when
no such segment exists. -/
theorem c7_envio_line (t : Str) :
    (findEnvio (collapseDS t) = none ∧
      (extract_fields t).envio = "Mercado Envíos".data) ∨
    (∃ cap pre suf, collapseDS t = pre ++ suf ∧ envioMatch suf = some cap ∧
      (∀ pre' suf', collapseDS t = pre' ++ suf' → pre'.length < pre.length →
        envioMatch suf' = none) ∧
      (extract_fields t).envio = stripStr cap ∧
      (∃ c1 c2 c3 c4 c5 r, cap = c1 :: c2 :: c3 :: c4 :: c5 :: r ∧
        isEnvE c1 = true ∧ isEnvN c2 = true ∧ isEnvV c3 = true ∧
        isEnvI c4 = true ∧ isEnvO c5 = true ∧ r.length ≤ 60 ∧ ∀ x ∈ r, x ≠ '\n') ∧
      (extract_fields t).envio.length ≤ 65 ∧
      (∀ x ∈ (extract_fields t).envio, x ≠ '\n') ∧
      (extract_fields t).envio ≠ []) := by
  cases h : findEnvio (collapseDS t) with
  | none =>
    left
    exact ⟨rfl, by rw [extract_fields_envio, h]⟩
  | some cap =>
    right
    obtain ⟨pre, suf, hsplit, hmatch, hmin⟩ := scanSuffixesP_some _ none cap h
    have hms : envioMatch suf = some cap := hmatch
    obtain ⟨c1, c2, c3, c4, c5, r, hcap, he, hn, hv, hi, ho, hr60, hrn⟩ :=
      envioMatch_some hms
    have henv : (extract_fields t).envio = stripStr cap := by
      rw [extract_fields_envio, h]
    have hsub := stripStr_sublist cap
    have hlen : (stripStr cap).length ≤ cap.length := hsub.length_le
    have hcaplen : cap.length ≤ 65 := by
      rw [hcap]
      simp only [List.length_cons]
      omega
    refine ⟨cap, pre, suf, hsplit, hms, ?_, henv,
      ⟨c1, c2, c3, c4, c5, r, hcap, he, hn, hv, hi, ho, hr60, hrn⟩, ?_, ?_, ?_⟩
    · intro pre' suf' hc hl
      exact hmin pre' suf' hc hl
    · rw [henv]; omega
    · intro x hx
      rw [henv] at hx
      have hxc : x ∈ cap := hsub.subset hx
      rw [hcap] at hxc
      simp only [List.mem_cons] at hxc
      have hc1 : c1 ≠ '\n' := by
        rcases (by simpa [isEnvE] using he : c1 = 'e' ∨ c1 = 'E') with rfl | rfl <;> decide
      have hc2 : c2 ≠ '\n' := by
        rcases (by simpa [isEnvN] using hn : c2 = 'n' ∨ c2 = 'N') with rfl | rfl <;> decide
      have hc3 : c3 ≠ '\n' := by
        rcases (by simpa [isEnvV] using hv : c3 = 'v' ∨ c3 = 'V') with rfl | rfl <;> decide
      have hc4 : c4 ≠ '\n' := by
        rcases (by simpa [isEnvI] using hi :
          ((c4 = 'i' ∨ c4 = 'I') ∨ c4 = 'í') ∨ c4 = 'Í') with ((rfl | rfl) | rfl) | rfl
          <;> decide
      have hc5 : c5 ≠ '\n' := by
        rcases (by simpa [isEnvO] using ho : c5 = 'o' ∨ c5 = 'O') with rfl | rfl <;> decide
      rcases hxc with rfl | rfl | rfl | rfl | rfl | hxr
      · exact hc1
      · exact hc2
      · exact hc3
      · exact hc4
      · exact hc5
      · exact hrn x hxr
    · rw [henv, hcap]
      exact stripStr_ne_nil (isEnvE_not_space he)

/-- C7 witness: the theorem applied to a text with a shipping line. -/
theorem c7_envio_line_witness :
    (findEnvio (collapseDS ("por Envío Full hoy".data)) = none ∧
      (extract_fields ("por Envío Full hoy".data)).envio = "Mercado Envíos".data) ∨
    (∃ cap pre suf, collapseDS ("por Envío Full hoy".data) = pre ++ suf ∧
      envioMatch suf = some cap ∧
      (∀ pre' suf', collapseDS ("por Envío Full hoy".data) = pre' ++ suf' →
        pre'.length < pre.length → envioMatch suf' = none) ∧
      (extract_fields ("por Envío Full hoy".data)).envio = stripStr cap ∧
      (∃ c1 c2 c3 c4 c5 r, cap = c1 :: c2 :: c3 :: c4 :: c5 :: r ∧
        isEnvE c1 = true ∧ isEnvN c2 = true ∧ isEnvV c3 = true ∧
        isEnvI c4 = true ∧ isEnvO c5 = true ∧ r.length ≤ 60 ∧ ∀ x ∈ r, x ≠ '\n') ∧
      (extract_fields ("por Envío Full hoy".data)).envio.length ≤ 65 ∧
      (∀ x ∈ (extract_fields ("por Envío Full hoy".data)).envio, x ≠ '\n') ∧
      (extract_fields ("por Envío Full hoy".data)).envio ≠ []) :=
  c7_envio_line ("por Envío Full hoy".data)

/-- C8: the extractor is a total function by construction (a Lean
function on all of `Str`, with no partiality anywhere in its
definition), returning a record with exactly the five fields of
`ExtractedRecord`; the marketplace is always the fixed constant, and the
three string fields are never empty (markers or fallbacks are
substituted), so every input yields a complete row. -/
theorem c8_total_record (t : Str) :
    (extract_fields t).marketplace = MARKETPLACE_CONST ∧
    (extract_fields t).sku ≠ [] ∧
    (extract_fields t).titulo ≠ [] ∧
    (extract_fields t).envio ≠ [] :=
  ⟨extract_fields_marketplace t, extract_fields_sku_ne_nil t,
    extract_fields_titulo_ne_nil t, extract_fields_envio_ne_nil t⟩

/-- C9: the resize computation of `preprocess` at a 97 by 97 input (in
exact binary64 arithmetic) yields 1599 by 1599: the longer dimension
falls one pixel short of the 1600 threshold because `1600 / 97` is
rounded down as a float and `int` truncates, contradicting the
claimed (and clearly intended) "the longer dimension reaches the
threshold"; for comparison, an input already at the threshold is left
unchanged. -/
theorem c9_preprocess_shortfall :
    preprocessSize 97 97 = (1599, 1599) ∧ 1599 < 1600 ∧
    preprocessSize 1600 1200 = (1600, 1200) := by
  refine ⟨by decide, by decide, by decide⟩

/-- C10: for every input text the SKU field is the marker
"No detectado", or a 13-digit substring of the input starting with
digit 7 (the regex match, an infix of the text), or the SKU of one of
the catalog entries; no other value can appear. -/
theorem c10_sku_provenance (t : Str) :
    (extract_fields t).sku = "No detectado".data ∨
    (∃ c, findEAN13 t = some c ∧ (extract_fields t).sku = c ∧ c.length = 13 ∧
      c.head? = some '7' ∧ c.all isDigitC = true ∧ c <:+: t) ∨
    ∃ e ∈ CATALOGO, (extract_fields t).sku = e.2.1 := by
  cases h : findEAN13 t with
  | some c =>
    right; left
    obtain ⟨hl, hh, ha, hi⟩ := findEAN13_shape h
    exact ⟨c, rfl, (extract_fields_of_found h).1, hl, hh, ha, hi⟩
  | none =>
    rcases extract_fields_sku_of_none h with h1 | h2
    · left; exact h1
    · right; right; exact h2

end OcrApp
